import Mathlib

/-!
Verification of the text-conversion module of resvg (src/convert/text.rs).

The Rust module walks the direct child spans of a text element, resolves
fonts, decorations and anchors per span, and groups the resulting styled
runs into positioned text chunks.  Coordinates (Rust f64) are embedded as
rationals; the external fuzzy float comparison is a parameter of the
conversion functions.  External collaborators (the fill/stroke paint
resolvers of src/convert/fill.rs and src/convert/stroke.rs) are likewise
passed as function parameters, following the interface the module uses.
-/

namespace resvg

/-- Predefined keyword values (svgdom ValueId), restricted to the keywords
this module inspects, plus Inherit as a representative of every other
keyword (reaching the catch-all match arms of the source). -/
inductive ValueId where
  | Start | Middle | End
  | Normal | Italic | Oblique
  | SmallCaps
  | Bold | Bolder | Lighter
  | N100 | N200 | N300 | N400 | N500 | N600 | N700 | N800 | N900
  | Wider | Narrower
  | UltraCondensed | ExtraCondensed | Condensed | SemiCondensed
  | SemiExpanded | Expanded | ExtraExpanded | UltraExpanded
  | Underline | Overline | LineThrough
  | Inherit
  deriving DecidableEq, Repr

/-- Attribute identifiers (short::AId) used by the module. -/
inductive AId where
  | X | Y | Transform | TextDecoration | TextAnchor
  | FontStyle | FontVariant | FontWeight | FontStretch | FontSize | FontFamily
  | Fill | Stroke
  deriving DecidableEq, Repr

/-- Affine transform attribute value; only carried through, never computed
with.  The Rust Default is the identity transform. -/
structure Transform where
  a : ℚ
  b : ℚ
  c : ℚ
  d : ℚ
  e : ℚ
  f : ℚ
  deriving DecidableEq, Repr

instance : Inhabited Transform := ⟨⟨1, 0, 0, 1, 0, 0⟩⟩

/-- A typed attribute value, mirroring the svgdom attribute-value variants
the module reads through its typed accessors. -/
inductive AttrValue where
  | num (n : ℚ)
  | numList (l : List ℚ)
  | str (s : String)
  | predef (v : ValueId)
  | transform (t : Transform)

/-- Attribute map of a node (svgdom::Attributes): a typed lookup keyed by
attribute id. -/
structure Attributes where
  lookup : AId → Option AttrValue

/-- Typed accessor: attrs.get_number. Returns none when the attribute is
absent or holds a value of another type. -/
def attrs_get_number (attrs : Attributes) (aid : AId) : Option ℚ :=
  match attrs.lookup aid with
  | some (AttrValue.num n) => some n
  | _ => none

/-- Typed accessor: attrs.get_number_list. -/
def attrs_get_number_list (attrs : Attributes) (aid : AId) : Option (List ℚ) :=
  match attrs.lookup aid with
  | some (AttrValue.numList l) => some l
  | _ => none

/-- Typed accessor: attrs.get_string. -/
def attrs_get_string (attrs : Attributes) (aid : AId) : Option String :=
  match attrs.lookup aid with
  | some (AttrValue.str s) => some s
  | _ => none

/-- Typed accessor: attrs.get_predef. -/
def attrs_get_predef (attrs : Attributes) (aid : AId) : Option ValueId :=
  match attrs.lookup aid with
  | some (AttrValue.predef v) => some v
  | _ => none

/-- Typed accessor: attrs.get_transform. -/
def attrs_get_transform (attrs : Attributes) (aid : AId) : Option Transform :=
  match attrs.lookup aid with
  | some (AttrValue.transform t) => some t
  | _ => none

/-- A tspan child of the text element: its attributes and, when present,
the text of its first (text-content) child node. -/
structure TSpanNode where
  attributes : Attributes
  firstChild : Option String

/-- The text element: its attributes and its ordered direct children. -/
structure TextElemNode where
  attributes : Attributes
  children : List TSpanNode

/-- Resolved fill paint (dom::Fill); produced by the external fill
resolver, only carried through here. -/
structure Fill where
  val : ℚ
  deriving DecidableEq, Repr

/-- Resolved stroke paint (dom::Stroke); produced by the external stroke
resolver, only carried through here. -/
structure Stroke where
  val : ℚ
  deriving DecidableEq, Repr

/-- Rust str::contains on character lists: pat occurs contiguously in s. -/
def containsSub (pat : List Char) : List Char → Bool
  | [] => pat.isEmpty
  | c :: rest => pat.isPrefixOf (c :: rest) || containsSub pat rest

/-- Rust str::contains for strings. -/
def str_contains (s pat : String) : Bool :=
  containsSub pat.data s.data

/-- Modelled from the spec: svgdom's FuzzyEq comparison for f64 is external
to this repository; the spec describes it as equality up to a small fixed
absolute epsilon.  The conversion functions below take the comparison as a
parameter; this instance, used for concrete evaluations, decides
abs (a - b) < 1 / 1000000000 in cross-multiplied integer form (see the
lemma fuzzy_eq_spec below). -/
def fuzzy_eq (a b : ℚ) : Bool :=
  decide (1000000000 * (a.num * (b.den : ℤ) - b.num * (a.den : ℤ)).natAbs
    < a.den * b.den)

/-- dom::FontStyle. -/
inductive FontStyle where
  | Normal | Italic | Oblique
  deriving DecidableEq, Repr

/-- dom::FontVariant. -/
inductive FontVariant where
  | Normal | SmallCaps
  deriving DecidableEq, Repr

/-- dom::FontWeight. -/
inductive FontWeight where
  | Normal | Bold | Bolder | Lighter
  | W100 | W200 | W300 | W400 | W500 | W600 | W700 | W800 | W900
  deriving DecidableEq, Repr

/-- dom::FontStretch. -/
inductive FontStretch where
  | Normal | Wider | Narrower
  | UltraCondensed | ExtraCondensed | Condensed | SemiCondensed
  | SemiExpanded | Expanded | ExtraExpanded | UltraExpanded
  deriving DecidableEq, Repr

/-- dom::Font. -/
structure Font where
  family : String
  size : ℚ
  style : FontStyle
  variant : FontVariant
  weight : FontWeight
  stretch : FontStretch
  deriving DecidableEq, Repr

/-- dom::TextDecorationStyle: the paint of one active decoration kind. -/
structure TextDecorationStyle where
  fill : Option Fill
  stroke : Option Stroke
  deriving DecidableEq, Repr

/-- dom::TextDecoration: three independent optional slots. -/
structure TextDecoration where
  underline : Option TextDecorationStyle
  overline : Option TextDecorationStyle
  line_through : Option TextDecorationStyle
  deriving DecidableEq, Repr

/-- dom::TextAnchor. -/
inductive TextAnchor where
  | Start | Middle | End
  deriving DecidableEq, Repr

/-- dom::TSpan, the styled run emitted per source span. -/
structure TSpan where
  fill : Option Fill
  stroke : Option Stroke
  font : Font
  decoration : TextDecoration
  text : String
  deriving DecidableEq, Repr

/-- dom::TextChunk. -/
structure TextChunk where
  x : ℚ
  y : ℚ
  anchor : TextAnchor
  children : List TSpan
  deriving DecidableEq, Repr

/-- dom::Text. -/
structure Text where
  children : List TextChunk
  deriving DecidableEq, Repr

/-- dom::ElementKind, restricted to the one variant this module builds. -/
inductive ElementKind where
  | text (t : Text)

/-- dom::Element. -/
structure Element where
  id : String
  kind : ElementKind
  transform : Transform

/-- Modelled from the spec: the crate-root DEFAULT_FONT_SIZE constant is
declared outside src/convert/text.rs; the spec only requires a fixed
default constant. -/
def DEFAULT_FONT_SIZE : ℚ := 12

/-- Modelled from the spec: the crate-root DEFAULT_FONT_FAMILY constant is
declared outside src/convert/text.rs; the spec only requires a fixed
default family string. -/
def DEFAULT_FONT_FAMILY : String := "Times New Roman"

/-- resolve_pos (text.rs lines 107-119): first element of the number-list
attribute, none when the list is empty or absent. -/
def resolve_pos (attrs : Attributes) (aid : AId) : Option ℚ :=
  match attrs_get_number_list attrs aid with
  | some list => if !list.isEmpty then list.head? else none
  | none => none

/-- Companion of resolve_pos: whether the source emits its warn!
diagnostic there (list present with more than one element). -/
def resolve_pos_warns (attrs : Attributes) (aid : AId) : Bool :=
  match attrs_get_number_list attrs aid with
  | some list => !list.isEmpty && decide (list.length > 1)
  | none => false

/-- conv_text_anchor (text.rs lines 217-226). -/
def conv_text_anchor (attrs : Attributes) : TextAnchor :=
  match (attrs_get_predef attrs AId.TextAnchor).getD ValueId.Start with
  | ValueId.Start => TextAnchor.Start
  | ValueId.Middle => TextAnchor.Middle
  | ValueId.End => TextAnchor.End
  | _ => TextAnchor.Start

/-- convert_font (text.rs lines 228-293). -/
def convert_font (attrs : Attributes) : Font :=
  let style :=
    match (attrs_get_predef attrs AId.FontStyle).getD ValueId.Normal with
    | ValueId.Normal => FontStyle.Normal
    | ValueId.Italic => FontStyle.Italic
    | ValueId.Oblique => FontStyle.Oblique
    | _ => FontStyle.Normal
  let variant :=
    match (attrs_get_predef attrs AId.FontVariant).getD ValueId.Normal with
    | ValueId.Normal => FontVariant.Normal
    | ValueId.SmallCaps => FontVariant.SmallCaps
    | _ => FontVariant.Normal
  let weight :=
    match (attrs_get_predef attrs AId.FontWeight).getD ValueId.Normal with
    | ValueId.Normal => FontWeight.Normal
    | ValueId.Bold => FontWeight.Bold
    | ValueId.Bolder => FontWeight.Bolder
    | ValueId.Lighter => FontWeight.Lighter
    | ValueId.N100 => FontWeight.W100
    | ValueId.N200 => FontWeight.W200
    | ValueId.N300 => FontWeight.W300
    | ValueId.N400 => FontWeight.W400
    | ValueId.N500 => FontWeight.W500
    | ValueId.N600 => FontWeight.W600
    | ValueId.N700 => FontWeight.W700
    | ValueId.N800 => FontWeight.W800
    | ValueId.N900 => FontWeight.W900
    | _ => FontWeight.Normal
  let stretch :=
    match (attrs_get_predef attrs AId.FontStretch).getD ValueId.Normal with
    | ValueId.Normal => FontStretch.Normal
    | ValueId.Wider => FontStretch.Wider
    | ValueId.Narrower => FontStretch.Narrower
    | ValueId.UltraCondensed => FontStretch.UltraCondensed
    | ValueId.ExtraCondensed => FontStretch.ExtraCondensed
    | ValueId.Condensed => FontStretch.Condensed
    | ValueId.SemiCondensed => FontStretch.SemiCondensed
    | ValueId.SemiExpanded => FontStretch.SemiExpanded
    | ValueId.Expanded => FontStretch.Expanded
    | ValueId.ExtraExpanded => FontStretch.ExtraExpanded
    | ValueId.UltraExpanded => FontStretch.UltraExpanded
    | _ => FontStretch.Normal
  let size := (attrs_get_number attrs AId.FontSize).getD DEFAULT_FONT_SIZE
  let family := (attrs_get_string attrs AId.FontFamily).getD DEFAULT_FONT_FAMILY
  { family := family, size := size, style := style,
    variant := variant, weight := weight, stretch := stretch }

/-- TextDecoTypes (text.rs lines 137-141). -/
structure TextDecoTypes where
  has_underline : Bool
  has_overline : Bool
  has_line_through : Bool

/-- conv_text_decoration (text.rs lines 145-158): the root's
text-decoration is a free-form string matched by substring containment. -/
def conv_text_decoration (attrs : Attributes) : TextDecoTypes :=
  let text := (attrs_get_string attrs AId.TextDecoration).getD ""
  { has_underline := str_contains text "underline",
    has_overline := str_contains text "overline",
    has_line_through := str_contains text "linethrough" }

/-- conv_tspan_decoration (text.rs lines 161-181): the span's own
text-decoration is a predefined keyword, compared for equality. -/
def conv_tspan_decoration (attrs : Attributes) : TextDecoTypes :=
  let has_attr := fun (decoration_id : ValueId) =>
    match attrs_get_predef attrs AId.TextDecoration with
    | some id => decide (id = decoration_id)
    | none => false
  { has_underline := has_attr ValueId.Underline,
    has_overline := has_attr ValueId.Overline,
    has_line_through := has_attr ValueId.LineThrough }

/-- conv_tspan_decoration2 (text.rs lines 183-215).  The external paint
resolvers fill::convert and stroke::convert are parameters fc and sc; the
node arguments are represented by their attribute maps (the only part the
source reads). -/
def conv_tspan_decoration2 (fc : Attributes → Option Fill)
    (sc : Attributes → Option Stroke)
    (node_attrs tspan_attrs : Attributes) : TextDecoration :=
  let text_dec := conv_text_decoration node_attrs
  let tspan_dec := conv_tspan_decoration tspan_attrs
  let gen_style := fun (in_tspan in_text : Bool) =>
    if in_tspan then
      some { fill := fc tspan_attrs, stroke := sc tspan_attrs }
    else if in_text then
      some { fill := fc node_attrs, stroke := sc node_attrs }
    else
      (none : Option TextDecorationStyle)
  { underline := gen_style tspan_dec.has_underline text_dec.has_underline,
    overline := gen_style tspan_dec.has_overline text_dec.has_overline,
    line_through := gen_style tspan_dec.has_line_through text_dec.has_line_through }

/-- create_text_chunk (text.rs lines 121-135); the chunk node argument is
represented by its attribute map, the only part the source reads. -/
def create_text_chunk (x y : ℚ) (tspans : List TSpan)
    (chunk_attrs : Attributes) : TextChunk :=
  { x := x, y := y, anchor := conv_text_anchor chunk_attrs,
    children := tspans }

/-- The dom::TSpan run pushed for one source span with text content
(text.rs lines 91-97). -/
def tspan_run (fc : Attributes → Option Fill) (sc : Attributes → Option Stroke)
    (root_attrs : Attributes) (tspan : TSpanNode) (text : String) : TSpan :=
  { fill := fc tspan.attributes,
    stroke := sc tspan.attributes,
    font := convert_font tspan.attributes,
    decoration := conv_tspan_decoration2 fc sc root_attrs tspan.attributes,
    text := text }

/-- The mutable locals of the convert_chunks loop (text.rs lines 52-59):
accumulated chunks, pending runs, the current anchor, and the attributes
of the node that last defined the position (first_chunk). -/
structure ChunkState where
  chunks : List TextChunk
  tspans : List TSpan
  prev_x : ℚ
  prev_y : ℚ
  first_chunk : Attributes

/-- The flush step of convert_chunks (text.rs lines 79-84): when runs are
pending and the 0.0-defaulted coordinates tx/ty differ fuzzily from the
anchor, close the pending runs into a chunk. -/
def maybe_flush (feq : ℚ → ℚ → Bool) (st : ChunkState) (tx ty : ℚ) : ChunkState :=
  if !st.tspans.isEmpty && (!feq tx st.prev_x || !feq ty st.prev_y) then
    { st with
      chunks := st.chunks ++
        [create_text_chunk st.prev_x st.prev_y st.tspans st.first_chunk],
      tspans := [] }
  else
    st

/-- The position-tracking step of convert_chunks (text.rs lines 75-89):
run only when the span sets x or y explicitly; the flush comparison uses
x.unwrap_or(0.0) and y.unwrap_or(0.0), while the anchor update uses
x.unwrap_or(prev_x) and y.unwrap_or(prev_y). -/
def update_pos (feq : ℚ → ℚ → Bool) (st : ChunkState) (tspan : TSpanNode) : ChunkState :=
  let x := resolve_pos tspan.attributes AId.X
  let y := resolve_pos tspan.attributes AId.Y
  if x.isSome || y.isSome then
    let st2 := maybe_flush feq st (x.getD 0) (y.getD 0)
    { st2 with
      prev_x := x.getD st2.prev_x,
      prev_y := y.getD st2.prev_y,
      first_chunk := tspan.attributes }
  else
    st

/-- One iteration of the convert_chunks loop (text.rs lines 61-98): a span
without a text-content child is skipped entirely; otherwise the position
step runs and a styled run is appended to the pending list. -/
def process_tspan (feq : ℚ → ℚ → Bool) (fc : Attributes → Option Fill)
    (sc : Attributes → Option Stroke) (root_attrs : Attributes)
    (st : ChunkState) (tspan : TSpanNode) : ChunkState :=
  match tspan.firstChild with
  | none => st
  | some text =>
    { update_pos feq st tspan with
      tspans := (update_pos feq st tspan).tspans ++
        [tspan_run fc sc root_attrs tspan text] }

/-- The loop initialisation of convert_chunks (text.rs lines 52-59). -/
def init_state (text_elem : TextElemNode) : ChunkState :=
  { chunks := [], tspans := [],
    prev_x := (resolve_pos text_elem.attributes AId.X).getD 0,
    prev_y := (resolve_pos text_elem.attributes AId.Y).getD 0,
    first_chunk := text_elem.attributes }

/-- The final flush after the loop (text.rs lines 100-102). -/
def final_flush (st : ChunkState) : List TextChunk :=
  if !st.tspans.isEmpty then
    st.chunks ++ [create_text_chunk st.prev_x st.prev_y st.tspans st.first_chunk]
  else
    st.chunks

/-- The chunk list built by convert_chunks (text.rs lines 48-105). -/
def convert_chunks_list (feq : ℚ → ℚ → Bool) (fc : Attributes → Option Fill)
    (sc : Attributes → Option Stroke) (text_elem : TextElemNode) : List TextChunk :=
  final_flush
    (List.foldl (process_tspan feq fc sc text_elem.attributes)
      (init_state text_elem) text_elem.children)

/-- convert_chunks (text.rs lines 48-105): the source wraps the collected
list in Some unconditionally. -/
def convert_chunks (feq : ℚ → ℚ → Bool) (fc : Attributes → Option Fill)
    (sc : Attributes → Option Stroke) (text_elem : TextElemNode) :
    Option (List TextChunk) :=
  some (convert_chunks_list feq fc sc text_elem)

/-- convert (text.rs lines 27-46), the conversion entry point. -/
def convert (feq : ℚ → ℚ → Bool) (fc : Attributes → Option Fill)
    (sc : Attributes → Option Stroke) (text_elem : TextElemNode) :
    Option Element :=
  let ts := (attrs_get_transform text_elem.attributes AId.Transform).getD default
  match convert_chunks feq fc sc text_elem with
  | some chunks =>
    some { id := "",
           kind := ElementKind.text { children := chunks },
           transform := ts }
  | none => none

/-- All runs of a chunk list, in order. -/
def chunk_runs (l : List TextChunk) : List TSpan :=
  (l.map TextChunk.children).flatten

/-- The run expected from each source span that has text content, in
document order. -/
def span_runs (fc : Attributes → Option Fill) (sc : Attributes → Option Stroke)
    (root_attrs : Attributes) (l : List TSpanNode) : List TSpan :=
  l.filterMap (fun t => t.firstChild.map (tspan_run fc sc root_attrs t))

/-- The chunk list of a converted element, when it is a text element. -/
def element_chunks : Option Element → Option (List TextChunk)
  | some e =>
    match e.kind with
    | ElementKind.text t => some t.children
  | none => none

/-- Attribute map built from an association list. -/
def attrsOfList (l : List (AId × AttrValue)) : Attributes :=
  ⟨fun aid => (l.find? (fun p => decide (p.1 = aid))).map Prod.snd⟩

/-- The empty attribute map. -/
def emptyAttrs : Attributes := attrsOfList []

/-- Paint resolver instance that never resolves a fill. -/
def fcN : Attributes → Option Fill := fun _ => none

/-- Paint resolver instance that never resolves a stroke. -/
def scN : Attributes → Option Stroke := fun _ => none

/-- Fill resolver instance reading the numeric fill attribute. -/
def fcP : Attributes → Option Fill :=
  fun a => (attrs_get_number a AId.Fill).map Fill.mk

/-- Stroke resolver instance reading the numeric stroke attribute. -/
def scP : Attributes → Option Stroke :=
  fun a => (attrs_get_number a AId.Stroke).map Stroke.mk

/-- Concrete span without position, text "A". -/
def c1_span1 : TSpanNode := ⟨emptyAttrs, some "A"⟩

/-- Concrete span setting only x = 10, text "B". -/
def c1_span2 : TSpanNode :=
  ⟨attrsOfList [(AId.X, AttrValue.numList [10])], some "B"⟩

/-- Concrete text element with root position (10, 5). -/
def c1_elem : TextElemNode :=
  ⟨attrsOfList [(AId.X, AttrValue.numList [10]), (AId.Y, AttrValue.numList [5])],
   [c1_span1, c1_span2]⟩

/-- Concrete span without position, text "A". -/
def c2_span1 : TSpanNode := ⟨emptyAttrs, some "A"⟩

/-- Concrete span setting only x = 3, text "B". -/
def c2_span2 : TSpanNode :=
  ⟨attrsOfList [(AId.X, AttrValue.numList [3])], some "B"⟩

/-- Concrete text element with root position (3, 7). -/
def c2_elem : TextElemNode :=
  ⟨attrsOfList [(AId.X, AttrValue.numList [3]), (AId.Y, AttrValue.numList [7])],
   [c2_span1, c2_span2]⟩

/-- Concrete root attributes: text-decoration string "overline", fill 1. -/
def c4_root_attrs : Attributes :=
  attrsOfList [(AId.TextDecoration, AttrValue.str "overline"),
    (AId.Fill, AttrValue.num 1)]

/-- Concrete span attributes: text-decoration keyword underline, fill 2. -/
def c4_span_attrs : Attributes :=
  attrsOfList [(AId.TextDecoration, AttrValue.predef ValueId.Underline),
    (AId.Fill, AttrValue.num 2)]

/-- Concrete span without position, text "A". -/
def c5_span1 : TSpanNode := ⟨emptyAttrs, some "A"⟩

/-- Concrete span setting x = 50 whose text-content node is present but
holds the empty string. -/
def c5_span2 : TSpanNode :=
  ⟨attrsOfList [(AId.X, AttrValue.numList [50])], some ""⟩

/-- Concrete text element without root position. -/
def c5_elem : TextElemNode := ⟨emptyAttrs, [c5_span1, c5_span2]⟩

/-- Attributes carrying an unrecognized font-weight keyword. -/
def c7_attrs_unrec : Attributes :=
  attrsOfList [(AId.FontWeight, AttrValue.predef ValueId.Inherit)]

/-- Attributes carrying the font-weight keyword 700. -/
def c7_attrs_700 : Attributes :=
  attrsOfList [(AId.FontWeight, AttrValue.predef ValueId.N700)]

/-- Concrete text element with no spans. -/
def c8_elem : TextElemNode := ⟨emptyAttrs, []⟩

/-- Concrete span used to populate pending-run states. -/
def spanW : TSpanNode := ⟨emptyAttrs, some "w"⟩

/-- A concrete pending styled run. -/
def runW : TSpan := tspan_run fcN scN emptyAttrs spanW "w"

/-- Concrete loop state: one pending run, anchor (10, 5). -/
def stW : ChunkState := ⟨[], [runW], 10, 5, emptyAttrs⟩

/-- Concrete loop state: one pending run, anchor (10, 0). -/
def stW2 : ChunkState := ⟨[], [runW], 10, 0, emptyAttrs⟩

/-- First span of the worked example of the spec (section 8). -/
def ex_span1 : TSpanNode := ⟨emptyAttrs, some "Hello"⟩

/-- Second span of the worked example of the spec (section 8). -/
def ex_span2 : TSpanNode :=
  ⟨attrsOfList [(AId.X, AttrValue.numList [50]), (AId.Y, AttrValue.numList [20])],
   some " World"⟩

/-- The worked example of the spec (section 8): root with x = 10, no y. -/
def ex_elem : TextElemNode :=
  ⟨attrsOfList [(AId.X, AttrValue.numList [10])], [ex_span1, ex_span2]⟩

/-- The concrete comparison instance is exactly the epsilon test the spec
describes: absolute difference below a small fixed epsilon. -/
lemma fuzzy_eq_spec (a b : ℚ) :
    fuzzy_eq a b = true ↔ |a - b| < 1 / 1000000000 := by
  unfold fuzzy_eq
  rw [decide_eq_true_eq]
  have had : (0:ℚ) < (a.den : ℚ) := by exact_mod_cast a.pos
  have hbd : (0:ℚ) < (b.den : ℚ) := by exact_mod_cast b.pos
  have ha : (a.num : ℚ) = a * (a.den : ℚ) := by
    nth_rewrite 2 [← Rat.num_div_den a]
    field_simp
  have hb : (b.num : ℚ) = b * (b.den : ℚ) := by
    nth_rewrite 2 [← Rat.num_div_den b]
    field_simp
  have hab : a - b
      = ((a.num * (b.den : ℤ) - b.num * (a.den : ℤ) : ℤ) : ℚ)
        / ((a.den : ℚ) * (b.den : ℚ)) := by
    rw [eq_div_iff (by positivity)]
    push_cast
    rw [ha, hb]
    ring
  rw [hab, abs_div, abs_of_pos (mul_pos had hbd)]
  rw [div_lt_div_iff₀ (mul_pos had hbd) (by norm_num)]
  rw [← Int.cast_abs]
  rw [Int.abs_eq_natAbs]
  constructor
  · intro h
    have h2 : ((1000000000 * (a.num * (b.den:ℤ) - b.num * (a.den:ℤ)).natAbs : ℕ) : ℚ)
        < ((a.den * b.den : ℕ) : ℚ) := by exact_mod_cast h
    push_cast [Int.cast_natAbs] at h2
    push_cast
    linarith
  · intro h
    have h2 : ((1000000000 * (a.num * (b.den:ℤ) - b.num * (a.den:ℤ)).natAbs : ℕ) : ℚ)
        < ((a.den * b.den : ℕ) : ℚ) := by
      push_cast [Int.cast_natAbs] at h ⊢
      linarith
    exact_mod_cast h2

lemma chunk_runs_append (a b : List TextChunk) :
    chunk_runs (a ++ b) = chunk_runs a ++ chunk_runs b := by
  simp [chunk_runs]

lemma chunk_runs_singleton (c : TextChunk) :
    chunk_runs [c] = c.children := by
  simp [chunk_runs]

lemma maybe_flush_runs (feq : ℚ → ℚ → Bool) (st : ChunkState) (tx ty : ℚ) :
    chunk_runs (maybe_flush feq st tx ty).chunks ++ (maybe_flush feq st tx ty).tspans
      = chunk_runs st.chunks ++ st.tspans := by
  unfold maybe_flush
  split
  · simp [chunk_runs_append, chunk_runs_singleton, create_text_chunk]
  · rfl

lemma maybe_flush_prev_x (feq : ℚ → ℚ → Bool) (st : ChunkState) (tx ty : ℚ) :
    (maybe_flush feq st tx ty).prev_x = st.prev_x := by
  unfold maybe_flush
  split <;> rfl

lemma maybe_flush_prev_y (feq : ℚ → ℚ → Bool) (st : ChunkState) (tx ty : ℚ) :
    (maybe_flush feq st tx ty).prev_y = st.prev_y := by
  unfold maybe_flush
  split <;> rfl

lemma update_pos_runs (feq : ℚ → ℚ → Bool) (st : ChunkState) (tspan : TSpanNode) :
    chunk_runs (update_pos feq st tspan).chunks ++ (update_pos feq st tspan).tspans
      = chunk_runs st.chunks ++ st.tspans := by
  unfold update_pos
  dsimp only
  split
  · exact maybe_flush_runs feq st _ _
  · rfl

lemma process_tspan_no_text (feq : ℚ → ℚ → Bool) (fc : Attributes → Option Fill)
    (sc : Attributes → Option Stroke) (ra : Attributes) (st : ChunkState)
    (tspan : TSpanNode) (h : tspan.firstChild = none) :
    process_tspan feq fc sc ra st tspan = st := by
  unfold process_tspan
  rw [h]

lemma process_tspan_runs (feq : ℚ → ℚ → Bool) (fc : Attributes → Option Fill)
    (sc : Attributes → Option Stroke) (ra : Attributes) (st : ChunkState)
    (tspan : TSpanNode) :
    chunk_runs (process_tspan feq fc sc ra st tspan).chunks
        ++ (process_tspan feq fc sc ra st tspan).tspans
      = chunk_runs st.chunks ++ st.tspans
        ++ (tspan.firstChild.map (tspan_run fc sc ra tspan)).toList := by
  cases h : tspan.firstChild with
  | none => simp [process_tspan_no_text feq fc sc ra st tspan h]
  | some txt =>
    unfold process_tspan
    rw [h]
    simp only [Option.map_some', Option.toList_some]
    rw [← List.append_assoc]
    rw [update_pos_runs feq st tspan]

lemma span_runs_nil (fc : Attributes → Option Fill)
    (sc : Attributes → Option Stroke) (ra : Attributes) :
    span_runs fc sc ra [] = [] := rfl

lemma span_runs_cons (fc : Attributes → Option Fill)
    (sc : Attributes → Option Stroke) (ra : Attributes)
    (t : TSpanNode) (l : List TSpanNode) :
    span_runs fc sc ra (t :: l)
      = (t.firstChild.map (tspan_run fc sc ra t)).toList ++ span_runs fc sc ra l := by
  cases h : t.firstChild <;> simp [span_runs, h]

lemma foldl_runs (feq : ℚ → ℚ → Bool) (fc : Attributes → Option Fill)
    (sc : Attributes → Option Stroke) (ra : Attributes) :
    ∀ (l : List TSpanNode) (st : ChunkState),
      chunk_runs (List.foldl (process_tspan feq fc sc ra) st l).chunks
          ++ (List.foldl (process_tspan feq fc sc ra) st l).tspans
        = chunk_runs st.chunks ++ st.tspans ++ span_runs fc sc ra l := by
  intro l
  induction l with
  | nil => intro st; simp [span_runs_nil]
  | cons t l ih =>
    intro st
    rw [List.foldl_cons, ih (process_tspan feq fc sc ra st t)]
    rw [process_tspan_runs feq fc sc ra st t, span_runs_cons]
    rw [List.append_assoc]

lemma final_flush_runs (st : ChunkState) :
    chunk_runs (final_flush st) = chunk_runs st.chunks ++ st.tspans := by
  unfold final_flush
  split
  · simp [chunk_runs_append, chunk_runs_singleton, create_text_chunk]
  · next h =>
    have : st.tspans.isEmpty = true := by
      cases hh : st.tspans.isEmpty
      · rw [hh] at h; exact absurd rfl h
      · rfl
    have : st.tspans = [] := List.isEmpty_iff.mp this
    simp [this]

/-- Main loop invariant instantiated at the entry point: the runs of all
chunks, in order, are exactly the runs of the spans with text content, in
document order. -/
lemma convert_chunks_list_runs (feq : ℚ → ℚ → Bool) (fc : Attributes → Option Fill)
    (sc : Attributes → Option Stroke) (elem : TextElemNode) :
    chunk_runs (convert_chunks_list feq fc sc elem)
      = span_runs fc sc elem.attributes elem.children := by
  unfold convert_chunks_list
  rw [final_flush_runs, foldl_runs]
  simp [init_state, chunk_runs]

lemma maybe_flush_nonempty (feq : ℚ → ℚ → Bool) (st : ChunkState) (tx ty : ℚ)
    (h : ∀ c ∈ st.chunks, c.children ≠ []) :
    ∀ c ∈ (maybe_flush feq st tx ty).chunks, c.children ≠ [] := by
  unfold maybe_flush
  split
  · next hg =>
    intro c hc
    rcases List.mem_append.mp hc with hc | hc
    · exact h c hc
    · have hne : st.tspans ≠ [] := by
        intro hnil
        rw [hnil] at hg
        simp at hg
      have : c = create_text_chunk st.prev_x st.prev_y st.tspans st.first_chunk := by
        simpa using hc
      rw [this]
      exact hne
  · exact h

lemma update_pos_nonempty (feq : ℚ → ℚ → Bool) (st : ChunkState) (tspan : TSpanNode)
    (h : ∀ c ∈ st.chunks, c.children ≠ []) :
    ∀ c ∈ (update_pos feq st tspan).chunks, c.children ≠ [] := by
  unfold update_pos
  dsimp only
  split
  · exact maybe_flush_nonempty feq st _ _ h
  · exact h

lemma process_tspan_nonempty (feq : ℚ → ℚ → Bool) (fc : Attributes → Option Fill)
    (sc : Attributes → Option Stroke) (ra : Attributes) (st : ChunkState)
    (tspan : TSpanNode) (h : ∀ c ∈ st.chunks, c.children ≠ []) :
    ∀ c ∈ (process_tspan feq fc sc ra st tspan).chunks, c.children ≠ [] := by
  cases hc : tspan.firstChild with
  | none => rw [process_tspan_no_text feq fc sc ra st tspan hc]; exact h
  | some txt =>
    unfold process_tspan
    rw [hc]
    exact update_pos_nonempty feq st tspan h

lemma foldl_nonempty (feq : ℚ → ℚ → Bool) (fc : Attributes → Option Fill)
    (sc : Attributes → Option Stroke) (ra : Attributes) :
    ∀ (l : List TSpanNode) (st : ChunkState),
      (∀ c ∈ st.chunks, c.children ≠ []) →
      ∀ c ∈ (List.foldl (process_tspan feq fc sc ra) st l).chunks, c.children ≠ [] := by
  intro l
  induction l with
  | nil => intro st h; exact h
  | cons t l ih =>
    intro st h
    rw [List.foldl_cons]
    exact ih (process_tspan feq fc sc ra st t)
      (process_tspan_nonempty feq fc sc ra st t h)

lemma final_flush_nonempty (st : ChunkState)
    (h : ∀ c ∈ st.chunks, c.children ≠ []) :
    ∀ c ∈ final_flush st, c.children ≠ [] := by
  unfold final_flush
  split
  · next hg =>
    intro c hc
    rcases List.mem_append.mp hc with hc | hc
    · exact h c hc
    · have hne : st.tspans ≠ [] := by
        intro hnil
        rw [hnil] at hg
        simp at hg
      have : c = create_text_chunk st.prev_x st.prev_y st.tspans st.first_chunk := by
        simpa using hc
      rw [this]
      exact hne
  · exact h

lemma convert_chunks_list_nonempty (feq : ℚ → ℚ → Bool) (fc : Attributes → Option Fill)
    (sc : Attributes → Option Stroke) (elem : TextElemNode) :
    ∀ c ∈ convert_chunks_list feq fc sc elem, c.children ≠ [] := by
  unfold convert_chunks_list
  apply final_flush_nonempty
  apply foldl_nonempty
  intro c hc
  simp [init_state] at hc

lemma foldl_skip (feq : ℚ → ℚ → Bool) (fc : Attributes → Option Fill)
    (sc : Attributes → Option Stroke) (ra : Attributes) :
    ∀ (l : List TSpanNode) (st : ChunkState),
      (∀ t ∈ l, t.firstChild = none) →
      List.foldl (process_tspan feq fc sc ra) st l = st := by
  intro l
  induction l with
  | nil => intro st _; rfl
  | cons t l ih =>
    intro st h
    rw [List.foldl_cons,
      process_tspan_no_text feq fc sc ra st t (h t (List.mem_cons_self t l))]
    exact ih st (fun u hu => h u (List.mem_cons_of_mem t hu))

/-- When no span has a text-content node, the chunk list is empty. -/
lemma convert_chunks_list_no_text (feq : ℚ → ℚ → Bool) (fc : Attributes → Option Fill)
    (sc : Attributes → Option Stroke) (elem : TextElemNode)
    (h : ∀ t ∈ elem.children, t.firstChild = none) :
    convert_chunks_list feq fc sc elem = [] := by
  unfold convert_chunks_list
  rw [foldl_skip feq fc sc elem.attributes elem.children (init_state elem) h]
  rfl

lemma process_tspan_some (feq : ℚ → ℚ → Bool) (fc : Attributes → Option Fill)
    (sc : Attributes → Option Stroke) (ra : Attributes) (st : ChunkState)
    (t : TSpanNode) (txt : String) (h : t.firstChild = some txt) :
    process_tspan feq fc sc ra st t
      = { update_pos feq st t with
          tspans := (update_pos feq st t).tspans ++ [tspan_run fc sc ra t txt] } := by
  unfold process_tspan
  rw [h]

lemma update_pos_pos (feq : ℚ → ℚ → Bool) (st : ChunkState) (t : TSpanNode)
    (h : ((resolve_pos t.attributes AId.X).isSome
          || (resolve_pos t.attributes AId.Y).isSome) = true) :
    update_pos feq st t
      = { maybe_flush feq st ((resolve_pos t.attributes AId.X).getD 0)
            ((resolve_pos t.attributes AId.Y).getD 0) with
          prev_x := (resolve_pos t.attributes AId.X).getD st.prev_x,
          prev_y := (resolve_pos t.attributes AId.Y).getD st.prev_y,
          first_chunk := t.attributes } := by
  unfold update_pos
  dsimp only
  split
  · rw [maybe_flush_prev_x, maybe_flush_prev_y]
  · next hc => exact absurd h hc

lemma maybe_flush_chunks (feq : ℚ → ℚ → Bool) (st : ChunkState) (tx ty : ℚ) :
    (maybe_flush feq st tx ty).chunks
      = (if !st.tspans.isEmpty && (!feq tx st.prev_x || !feq ty st.prev_y)
         then st.chunks ++
           [create_text_chunk st.prev_x st.prev_y st.tspans st.first_chunk]
         else st.chunks) := by
  unfold maybe_flush
  split <;> simp_all

lemma maybe_flush_noflush (feq : ℚ → ℚ → Bool) (st : ChunkState) (tx ty : ℚ)
    (h1 : feq tx st.prev_x = true) (h2 : feq ty st.prev_y = true) :
    maybe_flush feq st tx ty = st := by
  unfold maybe_flush
  rw [h1, h2]
  simp

lemma span_runs_texts (fc : Attributes → Option Fill)
    (sc : Attributes → Option Stroke) (ra : Attributes) :
    ∀ l : List TSpanNode,
      (span_runs fc sc ra l).map TSpan.text = l.filterMap TSpanNode.firstChild := by
  intro l
  induction l with
  | nil => rfl
  | cons t l ih =>
    rw [span_runs_cons]
    cases h : t.firstChild with
    | none => simp [h, List.filterMap_cons, ih]
    | some txt => simp [h, List.filterMap_cons, ih, tspan_run]

/-- The worked example of the spec, section 8, reproduced by the
embedding: root x = 10 and two spans yield the two expected chunks. -/
lemma spec_example_chunks :
    (convert_chunks_list fuzzy_eq fcN scN ex_elem).map
        (fun c => (c.x, c.y, c.children.map TSpan.text))
      = [(10, 0, ["Hello"]), (50, 20, [" World"])] := by decide

/-- Claim C3: every chunk produced by convert_chunks holds at least one
styled run, and the chunks appear in document order of the spans that
produced their runs (the concatenation of their run lists is the in-order
run list of the spans with text content). -/
theorem C3_chunks_nonempty_in_order (feq : ℚ → ℚ → Bool)
    (fc : Attributes → Option Fill) (sc : Attributes → Option Stroke)
    (elem : TextElemNode) :
    ((convert_chunks_list feq fc sc elem).all (fun c => !c.children.isEmpty)) = true
    ∧ chunk_runs (convert_chunks_list feq fc sc elem)
        = span_runs fc sc elem.attributes elem.children := by
  constructor
  · rw [List.all_eq_true]
    intro c hc
    have hne := convert_chunks_list_nonempty feq fc sc elem c hc
    cases hcc : c.children with
    | nil => exact absurd hcc hne
    | cons a l => rfl
  · exact convert_chunks_list_runs feq fc sc elem

/-- Claim C10: the concatenation of the run lists of all chunks, in
order, contains exactly one styled run per direct child span that has a
text-content node, in document order: no run is dropped, duplicated or
reordered by chunk flushing, including runs whose text is the empty
string (the run texts are exactly the spans' text-content values). -/
theorem C10_run_concatenation_exact (feq : ℚ → ℚ → Bool)
    (fc : Attributes → Option Fill) (sc : Attributes → Option Stroke)
    (elem : TextElemNode) :
    chunk_runs (convert_chunks_list feq fc sc elem)
      = elem.children.filterMap
          (fun t => t.firstChild.map (tspan_run fc sc elem.attributes t))
    ∧ (chunk_runs (convert_chunks_list feq fc sc elem)).map TSpan.text
        = elem.children.filterMap TSpanNode.firstChild := by
  have h := convert_chunks_list_runs feq fc sc elem
  constructor
  · exact h
  · rw [h]
    exact span_runs_texts fc sc elem.attributes elem.children

/-- Claim C8: the conversion entry point always succeeds, and a text
element whose spans all lack a text-content node (in particular one with
no spans) yields an element with an empty chunk list. -/
theorem C8_convert_total (feq : ℚ → ℚ → Bool) (fc : Attributes → Option Fill)
    (sc : Attributes → Option Stroke) (elem : TextElemNode) :
    (convert feq fc sc elem).isSome = true
    ∧ (elem.children.all (fun t => t.firstChild.isNone) = true →
        element_chunks (convert feq fc sc elem) = some []) := by
  constructor
  · simp [convert, convert_chunks]
  · intro h
    have h2 : ∀ t ∈ elem.children, t.firstChild = none := by
      intro t ht
      have := List.all_eq_true.mp h t ht
      simpa [Option.isNone_iff_eq_none] using this
    simp [convert, convert_chunks, element_chunks,
      convert_chunks_list_no_text feq fc sc elem h2]

/-- Witness for C8 at a concrete element with no spans. -/
theorem C8_convert_total_witness :
    element_chunks (convert fuzzy_eq fcN scN c8_elem) = some [] :=
  (C8_convert_total fuzzy_eq fcN scN c8_elem).2 rfl

/-- Claim C6: a number-list coordinate attribute resolves to its first
element when non-empty (with the non-fatal diagnostic emitted exactly
when the list has more than one element) and to none when the list is
empty or absent; concrete instances included. -/
theorem C6_resolve_pos_first_value (attrs : Attributes) (aid : AId) :
    resolve_pos attrs aid
      = (match attrs_get_number_list attrs aid with
         | some (a :: _) => some a
         | _ => none)
    ∧ resolve_pos_warns attrs aid
      = (match attrs_get_number_list attrs aid with
         | some (_ :: _ :: _) => true
         | _ => false)
    ∧ resolve_pos (attrsOfList [(AId.X, AttrValue.numList [7, 8])]) AId.X = some 7
    ∧ resolve_pos_warns (attrsOfList [(AId.X, AttrValue.numList [7, 8])]) AId.X = true
    ∧ resolve_pos (attrsOfList [(AId.X, AttrValue.numList [])]) AId.X = none
    ∧ resolve_pos_warns (attrsOfList [(AId.X, AttrValue.numList [7])]) AId.X = false := by
  refine ⟨?_, ?_, rfl, rfl, rfl, rfl⟩
  · cases h : attrs_get_number_list attrs aid with
    | none => simp [resolve_pos, h]
    | some l =>
      cases l with
      | nil => simp [resolve_pos, h]
      | cons a tl => simp [resolve_pos, h]
  · cases h : attrs_get_number_list attrs aid with
    | none => simp [resolve_pos_warns, h]
    | some l =>
      cases l with
      | nil => simp [resolve_pos_warns, h]
      | cons a tl =>
        cases tl with
        | nil => simp [resolve_pos_warns, h]
        | cons b tl2 => simp [resolve_pos_warns, h]

/-- Claim C9: the root-level line-through decoration is active exactly
when the root's text-decoration string contains the unhyphenated token
"linethrough"; the hyphenated "line-through" does not activate it. -/
theorem C9_linethrough_no_hyphen (attrs : Attributes) :
    (conv_text_decoration attrs).has_line_through
      = str_contains ((attrs_get_string attrs AId.TextDecoration).getD "")
          "linethrough"
    ∧ str_contains "line-through" "linethrough" = false
    ∧ str_contains "linethrough" "linethrough" = true
    ∧ (conv_text_decoration (attrsOfList
        [(AId.TextDecoration, AttrValue.str "line-through")])).has_line_through
        = false := by
  refine ⟨rfl, by decide, by decide, by decide⟩

/-- Counterexample to claim C4 as stated: with span keyword underline and
root string "overline", the underline slot is styled from the span's
paint, but the overline slot is not absent: it is present, styled from
the root's paint, because each kind is decided independently. -/
theorem C4_counterexample :
    (conv_tspan_decoration2 fcP scP c4_root_attrs c4_span_attrs).underline
      = some { fill := some ⟨2⟩, stroke := none }
    ∧ (conv_tspan_decoration2 fcP scP c4_root_attrs c4_span_attrs).overline
      ≠ none := by
  refine ⟨by decide, by decide⟩

/-- Claim C4 as amended: for each decoration kind independently, the slot
is styled from the span's own paint when the span's keyword equals that
kind, else from the root's paint when the root's decoration string
contains the kind's token, else absent; the two sources are never merged
for one kind.  In the spec's example (span underline, root "overline"),
the underline slot comes from the span's paint and the overline slot from
the root's paint. -/
theorem C4_decoration_per_kind (fc : Attributes → Option Fill)
    (sc : Attributes → Option Stroke) (ra ta : Attributes) :
    (conv_tspan_decoration2 fc sc ra ta).underline
      = (if (conv_tspan_decoration ta).has_underline then
           some { fill := fc ta, stroke := sc ta }
         else if (conv_text_decoration ra).has_underline then
           some { fill := fc ra, stroke := sc ra }
         else none)
    ∧ (conv_tspan_decoration2 fc sc ra ta).overline
      = (if (conv_tspan_decoration ta).has_overline then
           some { fill := fc ta, stroke := sc ta }
         else if (conv_text_decoration ra).has_overline then
           some { fill := fc ra, stroke := sc ra }
         else none)
    ∧ (conv_tspan_decoration2 fc sc ra ta).line_through
      = (if (conv_tspan_decoration ta).has_line_through then
           some { fill := fc ta, stroke := sc ta }
         else if (conv_text_decoration ra).has_line_through then
           some { fill := fc ra, stroke := sc ra }
         else none)
    ∧ (conv_tspan_decoration2 fcP scP c4_root_attrs c4_span_attrs).underline
      = some { fill := some ⟨2⟩, stroke := none }
    ∧ (conv_tspan_decoration2 fcP scP c4_root_attrs c4_span_attrs).overline
      = some { fill := some ⟨1⟩, stroke := none }
    ∧ (conv_tspan_decoration2 fcP scP c4_root_attrs c4_span_attrs).line_through
      = none := by
  refine ⟨rfl, rfl, rfl, by decide, by decide, by decide⟩

/-- Counterexample to claim C1 as stated: the anchor is (10, 5), one run
is pending, and the span sets only x = 10, fuzzy-equal to the anchor x.
The claim predicts that the unset y axis carries over (so no flush, one
chunk); the code compares y.unwrap_or(0.0) = 0 against 5 and flushes,
producing two chunks. -/
theorem C1_counterexample :
    resolve_pos c1_span2.attributes AId.X = some 10
    ∧ resolve_pos c1_span2.attributes AId.Y = none
    ∧ fuzzy_eq 10 10 = true
    ∧ (convert_chunks_list fuzzy_eq fcN scN c1_elem).map
        (fun c => (c.x, c.y, c.children.map TSpan.text))
      = [(10, 5, ["A"]), (10, 5, ["B"])] := by
  refine ⟨by decide, by decide, by decide, by decide⟩

/-- Claim C1 as amended: for a span with text content and at least one
explicit coordinate, the flush decision compares tx = x.unwrap_or(0.0)
and ty = y.unwrap_or(0.0) (not the anchor-defaulted values) against the
current anchor, flushing exactly when runs are pending and either
comparison is fuzzy-unequal; the anchor update itself does carry the
unset axis over unchanged, and the chunk source becomes the span. -/
theorem C1_flush_rule (feq : ℚ → ℚ → Bool) (fc : Attributes → Option Fill)
    (sc : Attributes → Option Stroke) (ra : Attributes) (st : ChunkState)
    (t : TSpanNode) (txt : String) (h1 : t.firstChild = some txt)
    (h2 : ((resolve_pos t.attributes AId.X).isSome
            || (resolve_pos t.attributes AId.Y).isSome) = true) :
    (process_tspan feq fc sc ra st t).chunks
      = (if !st.tspans.isEmpty
            && (!feq ((resolve_pos t.attributes AId.X).getD 0) st.prev_x
                || !feq ((resolve_pos t.attributes AId.Y).getD 0) st.prev_y)
         then st.chunks ++
           [create_text_chunk st.prev_x st.prev_y st.tspans st.first_chunk]
         else st.chunks)
    ∧ (process_tspan feq fc sc ra st t).prev_x
        = (resolve_pos t.attributes AId.X).getD st.prev_x
    ∧ (process_tspan feq fc sc ra st t).prev_y
        = (resolve_pos t.attributes AId.Y).getD st.prev_y
    ∧ (process_tspan feq fc sc ra st t).first_chunk = t.attributes := by
  rw [process_tspan_some feq fc sc ra st t txt h1, update_pos_pos feq st t h2]
  refine ⟨?_, rfl, rfl, rfl⟩
  exact maybe_flush_chunks feq st _ _

/-- Witness for C1_flush_rule at a concrete state and span. -/
theorem C1_flush_rule_witness :
    (process_tspan fuzzy_eq fcN scN emptyAttrs stW c1_span2).first_chunk
      = c1_span2.attributes :=
  (C1_flush_rule fuzzy_eq fcN scN emptyAttrs stW c1_span2 "B" rfl
    (by decide)).2.2.2

/-- Counterexample to claim C2 as stated: the anchor is (3, 7), one run
is pending, and the span's only set axis is x = 3, fuzzy-equal to the
anchor x.  The claim predicts no new chunk; the code opens one, because
the unset y axis is compared as 0.0 against 7. -/
theorem C2_counterexample :
    resolve_pos c2_span2.attributes AId.X = some 3
    ∧ resolve_pos c2_span2.attributes AId.Y = none
    ∧ fuzzy_eq 3 3 = true
    ∧ (convert_chunks_list fuzzy_eq fcN scN c2_elem).length = 2 := by
  refine ⟨by decide, by decide, by decide, by decide⟩

/-- Claim C2 as amended: for a span with text content and an explicit
coordinate, when both zero-defaulted coordinates x.unwrap_or(0.0) and
y.unwrap_or(0.0) are fuzzy-equal to the current anchor (in particular
when the span sets both axes fuzzy-equal to the anchor), no flush occurs,
yet chunk_source is updated to that span, so the anchor keyword of the
eventually flushed chunk is resolved from that span's attributes. -/
theorem C2_equal_anchor_updates_source (feq : ℚ → ℚ → Bool)
    (fc : Attributes → Option Fill) (sc : Attributes → Option Stroke)
    (ra : Attributes) (st : ChunkState) (t : TSpanNode) (txt : String)
    (h1 : t.firstChild = some txt)
    (h2 : ((resolve_pos t.attributes AId.X).isSome
            || (resolve_pos t.attributes AId.Y).isSome) = true)
    (h3 : feq ((resolve_pos t.attributes AId.X).getD 0) st.prev_x = true)
    (h4 : feq ((resolve_pos t.attributes AId.Y).getD 0) st.prev_y = true) :
    (process_tspan feq fc sc ra st t).chunks = st.chunks
    ∧ (process_tspan feq fc sc ra st t).tspans
        = st.tspans ++ [tspan_run fc sc ra t txt]
    ∧ (process_tspan feq fc sc ra st t).first_chunk = t.attributes
    ∧ (∀ (cx cy : ℚ) (ts : List TSpan),
        (create_text_chunk cx cy ts t.attributes).anchor
          = conv_text_anchor t.attributes) := by
  rw [process_tspan_some feq fc sc ra st t txt h1, update_pos_pos feq st t h2]
  rw [maybe_flush_noflush feq st _ _ h3 h4]
  exact ⟨rfl, rfl, rfl, fun cx cy ts => rfl⟩

/-- Witness for C2_equal_anchor_updates_source at a concrete state in
which the span's set axis equals the anchor. -/
theorem C2_equal_anchor_updates_source_witness :
    (process_tspan fuzzy_eq fcN scN emptyAttrs stW2 c1_span2).chunks
      = stW2.chunks :=
  (C2_equal_anchor_updates_source fuzzy_eq fcN scN emptyAttrs stW2 c1_span2 "B"
    rfl (by decide) (by decide) (by decide)).1

/-- Counterexample to claim C5 as stated: a span with explicit x = 50
whose text-content node is present but empty is not inert: it opens a new
chunk, moves the anchor to 50, and emits a run with empty text. -/
theorem C5_counterexample :
    c5_span2.firstChild = some ""
    ∧ resolve_pos c5_span2.attributes AId.X = some 50
    ∧ (convert_chunks_list fuzzy_eq fcN scN c5_elem).map TextChunk.x = [0, 50]
    ∧ (chunk_runs (convert_chunks_list fuzzy_eq fcN scN c5_elem)).map TSpan.text
      = ["A", ""] := by
  refine ⟨rfl, by decide, by decide, by decide⟩

/-- Claim C5 as amended: a span whose text-content node is absent is
skipped entirely: the loop state (pending runs, accumulated chunks,
anchor position and chunk source) is exactly what it was before the span
was encountered, whatever explicit coordinates the span carries. -/
theorem C5_span_without_text_inert (feq : ℚ → ℚ → Bool)
    (fc : Attributes → Option Fill) (sc : Attributes → Option Stroke)
    (ra : Attributes) (st : ChunkState) (t : TSpanNode)
    (h : t.firstChild = none) :
    process_tspan feq fc sc ra st t = st :=
  process_tspan_no_text feq fc sc ra st t h

/-- Witness for C5_span_without_text_inert: a span with explicit x = 50
and no text-content node leaves a concrete state unchanged. -/
theorem C5_span_without_text_inert_witness :
    process_tspan fuzzy_eq fcN scN emptyAttrs stW
        ⟨attrsOfList [(AId.X, AttrValue.numList [50])], none⟩
      = stW :=
  C5_span_without_text_inert fuzzy_eq fcN scN emptyAttrs stW
    ⟨attrsOfList [(AId.X, AttrValue.numList [50])], none⟩ rfl

/-- Claim C7: font resolution is total; size and family fall back to the
fixed defaults when absent, each keyword attribute falls back to Normal
when absent or unrecognized, and the weight keyword 700 maps to W700. -/
theorem C7_convert_font_total (attrs : Attributes) :
    (convert_font attrs).size
      = (attrs_get_number attrs AId.FontSize).getD DEFAULT_FONT_SIZE
    ∧ (convert_font attrs).family
      = (attrs_get_string attrs AId.FontFamily).getD DEFAULT_FONT_FAMILY
    ∧ (attrs_get_predef attrs AId.FontWeight = some ValueId.N700 →
        (convert_font attrs).weight = FontWeight.W700)
    ∧ (∀ v, attrs_get_predef attrs AId.FontStyle = some v →
        v ∉ [ValueId.Normal, ValueId.Italic, ValueId.Oblique] →
        (convert_font attrs).style = FontStyle.Normal)
    ∧ (attrs_get_predef attrs AId.FontStyle = none →
        (convert_font attrs).style = FontStyle.Normal)
    ∧ (∀ v, attrs_get_predef attrs AId.FontVariant = some v →
        v ∉ [ValueId.Normal, ValueId.SmallCaps] →
        (convert_font attrs).variant = FontVariant.Normal)
    ∧ (attrs_get_predef attrs AId.FontVariant = none →
        (convert_font attrs).variant = FontVariant.Normal)
    ∧ (∀ v, attrs_get_predef attrs AId.FontWeight = some v →
        v ∉ [ValueId.Normal, ValueId.Bold, ValueId.Bolder, ValueId.Lighter,
             ValueId.N100, ValueId.N200, ValueId.N300, ValueId.N400,
             ValueId.N500, ValueId.N600, ValueId.N700, ValueId.N800,
             ValueId.N900] →
        (convert_font attrs).weight = FontWeight.Normal)
    ∧ (attrs_get_predef attrs AId.FontWeight = none →
        (convert_font attrs).weight = FontWeight.Normal)
    ∧ (∀ v, attrs_get_predef attrs AId.FontStretch = some v →
        v ∉ [ValueId.Normal, ValueId.Wider, ValueId.Narrower,
             ValueId.UltraCondensed, ValueId.ExtraCondensed, ValueId.Condensed,
             ValueId.SemiCondensed, ValueId.SemiExpanded, ValueId.Expanded,
             ValueId.ExtraExpanded, ValueId.UltraExpanded] →
        (convert_font attrs).stretch = FontStretch.Normal)
    ∧ (attrs_get_predef attrs AId.FontStretch = none →
        (convert_font attrs).stretch = FontStretch.Normal) := by
  refine ⟨rfl, rfl, ?_, ?_, ?_, ?_, ?_, ?_, ?_, ?_, ?_⟩
  · intro h; simp [convert_font, h]
  · intro v hv hmem; simp only [convert_font, hv, Option.getD_some]
    cases v <;> simp_all
  · intro h; simp [convert_font, h]
  · intro v hv hmem; simp only [convert_font, hv, Option.getD_some]
    cases v <;> simp_all
  · intro h; simp [convert_font, h]
  · intro v hv hmem; simp only [convert_font, hv, Option.getD_some]
    cases v <;> simp_all
  · intro h; simp [convert_font, h]
  · intro v hv hmem; simp only [convert_font, hv, Option.getD_some]
    cases v <;> simp_all
  · intro h; simp [convert_font, h]

/-- Witness for C7 at concrete attribute maps: an unrecognized weight
keyword falls back to Normal, and the keyword 700 yields W700. -/
theorem C7_convert_font_total_witness :
    (convert_font c7_attrs_unrec).weight = FontWeight.Normal
    ∧ (convert_font c7_attrs_700).weight = FontWeight.W700 :=
  ⟨(C7_convert_font_total c7_attrs_unrec).2.2.2.2.2.2.2.1 ValueId.Inherit
      rfl (by decide),
   (C7_convert_font_total c7_attrs_700).2.2.1 rfl⟩

end resvg
